import Mathlib

/-!
Verification development for the libmavconn TCP transport
(`src/libmavconn/src/tcp.cpp`, classes `MAVConnTCPClient` and
`MAVConnTCPServer`).

The sequential behaviour of the reactor-driven send machinery, the close
paths, the server broadcast, the registry and the statistics aggregation
are embedded shallowly below.  Mutex-protected critical sections of the
C++ code become atomic steps of an event machine; the arbitrary
interleaving of caller threads with the single io_service (reactor)
thread is captured by quantifying over arbitrary event sequences.
-/

namespace mavconn

/-- One entry of the outbound queue: an immutable byte payload plus a
cursor `pos` counting the bytes already handed to the socket.  Mirrors
the `MsgBuffer` objects stored in `MAVConnTCPClient::tx_q`; `dpos` and
`nbytes` mirror the accessors used by `do_send` (`buf_ref.dpos()`,
`buf_ref.nbytes()`).  Bytes are modelled as `Nat`. -/
structure MsgBuffer where
  payload : List Nat
  pos : Nat
deriving Repr, DecidableEq

/-- Remaining unsent byte count, `len - pos` (Nat subtraction, as in the
C++ `nbytes()` which returns `len - pos`). -/
def MsgBuffer.nbytes (b : MsgBuffer) : Nat := b.payload.length - b.pos

/-- The remaining unsent bytes themselves, the region `dpos()`/`nbytes()`
passed to `async_send`. -/
def MsgBuffer.dpos (b : MsgBuffer) : List Nat := b.payload.drop b.pos

/-- Capacity bound of the outbound queue.  The constant is declared in
the library header (outside `src/`); its concrete value (1000 in the
shipped header) is irrelevant to every property below, which only uses
that it is a fixed bound. -/
def MAX_TXQ_SIZE : Nat := 1000

/-- Parse counters of one connection (`mavlink_status_t` fields summed
by `MAVConnTCPServer::get_status`).  Fixed-width wrap-around of the
C counters is abstracted: the aggregation in `tcp.cpp` is plain
field-wise `+=`. -/
structure MavlinkStatus where
  packet_rx_success_count : Nat
  packet_rx_drop_count : Nat
  buffer_overrun : Nat
  parse_error : Nat
deriving Repr, DecidableEq

/-- I/O counters of one connection (`MAVConnInterface::IOStat` fields
summed by `MAVConnTCPServer::get_iostat`). -/
structure IOStat where
  tx_total_bytes : Nat
  rx_total_bytes : Nat
  tx_speed : Nat
  rx_speed : Nat
deriving Repr, DecidableEq

/-- State of one `MAVConnTCPClient`.

* `socket_open` — the asio socket's open flag, what `is_open()` reads;
  set to `false` by `close()`.
* `tx_in_progress` — the `tx_in_progress` member.
* `tx_q` — the outbound queue `tx_q` (front at the head of the list).
* `emitted` — the bytes the socket has accepted so far, in order: the
  concatenation of the byte regions consumed by completed
  `async_send` operations.
* `stopped` — whether `stop()` has run (io_service stopped and the io
  thread joined).
* `closed_cb_installed` / `closed_cb_count` — whether `port_closed_cb`
  was installed by `connect`, and how many times it has been invoked.
* `conn_id` — the channel id, unique per connection, standing in for
  the `shared_ptr` identity used by the server registry.
* `status`, `iostat` — this connection's own counters. -/
structure TCPClientState where
  socket_open : Bool
  tx_in_progress : Bool
  tx_q : List MsgBuffer
  emitted : List Nat
  stopped : Bool
  closed_cb_installed : Bool
  closed_cb_count : Nat
  conn_id : Nat
  status : MavlinkStatus := ⟨0, 0, 0, 0⟩
  iostat : IOStat := ⟨0, 0, 0, 0⟩
deriving Repr, DecidableEq

/-- The `is_open()` accessor: reads the socket's open flag. -/
def TCPClientState.is_open (s : TCPClientState) : Bool := s.socket_open

/-- Caller-visible outcome of one `send_bytes` / `send_message` call.
`closedDrop` is a plain `return` after a log line (the channel-closed
path), `overflowThrow` is the thrown `std::length_error`, `ok` is a
normal return after enqueueing. -/
inductive SendOutcome
  | ok
  | closedDrop
  | overflowThrow
deriving Repr, DecidableEq

/-- Whether the outcome surfaces an error to the caller.  The only
caller-visible error mechanism in these functions is the thrown
exception; `ok` and `closedDrop` both return normally (the latter only
writes a log line). -/
def SendOutcome.surfacesError : SendOutcome → Bool
  | .overflowThrow => true
  | _ => false

namespace MAVConnTCPClient

/-- Function `MAVConnTCPClient::send_bytes`: if the channel is not open, log and
return (no enqueue); under the mutex, if `tx_q.size() >= MAX_TXQ_SIZE`
throw `length_error` (no enqueue); otherwise append a fresh buffer with
cursor 0 and post a `do_send(true)`. -/
def send_bytes (s : TCPClientState) (p : List Nat) : SendOutcome × TCPClientState :=
  if ¬ s.is_open then (.closedDrop, s)
  else if MAX_TXQ_SIZE ≤ s.tx_q.length then (.overflowThrow, s)
  else (.ok, { s with tx_q := s.tx_q ++ [⟨p, 0⟩] })

/-- Function `MAVConnTCPClient::send_message` (both overloads): identical control
flow to `send_bytes`; `p` is the framed/serialized byte image of the
message that the constructed `MsgBuffer` holds. -/
def send_message (s : TCPClientState) (p : List Nat) : SendOutcome × TCPClientState :=
  if ¬ s.is_open then (.closedDrop, s)
  else if MAX_TXQ_SIZE ≤ s.tx_q.length then (.overflowThrow, s)
  else (.ok, { s with tx_q := s.tx_q ++ [⟨p, 0⟩] })

/-- Function `MAVConnTCPClient::do_send(true)` as posted after an enqueue: a
no-op if a send is already in flight or the queue is empty, otherwise
it marks `tx_in_progress` and issues a write of the front buffer's
remaining region. -/
def do_send_post (s : TCPClientState) : TCPClientState :=
  if s.tx_in_progress then s
  else if s.tx_q.isEmpty then s
  else { s with tx_in_progress := true }

/-- Completion of one `async_send` that transferred `n` bytes, together
with the write itself: the socket consumed the first `n` bytes of the
front buffer's remaining region (the region is captured at issue time,
but the front buffer is mutated only by this handler, so it is still
the front here).  The handler then runs under the mutex: if the queue
is empty it only clears `tx_in_progress`; otherwise it advances the
front cursor by `n`, pops the buffer when `nbytes()` reaches 0, and
either chains the next write via `do_send(false)` (queue still
non-empty, `tx_in_progress` stays set) or clears `tx_in_progress`. -/
def tx_complete (s : TCPClientState) (n : Nat) : TCPClientState :=
  match s.tx_q with
  | [] => { s with tx_in_progress := false }
  | b :: rest =>
    let b' : MsgBuffer := ⟨b.payload, b.pos + n⟩
    let q' := if b'.nbytes = 0 then rest else b' :: rest
    { s with
      emitted := s.emitted ++ b.dpos.take n
      tx_q := q'
      tx_in_progress := !q'.isEmpty }

end MAVConnTCPClient

/-- One atomic step of the send machinery: a successful enqueue by some
caller thread, the posted drain (`do_send(true)`) running on the
reactor, or a write completion of `n` bytes running on the reactor. -/
inductive TxEvent
  | enq (p : List Nat)
  | drain
  | comp (n : Nat)
deriving Repr, DecidableEq

/-- Applies one event to the connection state. -/
def txStep (s : TCPClientState) : TxEvent → TCPClientState
  | .enq p => (MAVConnTCPClient.send_bytes s p).2
  | .drain => MAVConnTCPClient.do_send_post s
  | .comp n => MAVConnTCPClient.tx_complete s n

/-- Whether the event can occur in state `s`: an enqueue event stands
for a `send_bytes` call that succeeded; a completion requires a write
in flight and can transfer at most the issued region's size (asio
reports `bytes_transferred` at most the buffer size it was given, and
`do_send` asserts it). -/
def txValid (s : TCPClientState) : TxEvent → Bool
  | .enq p => match (MAVConnTCPClient.send_bytes s p).1 with
              | .ok => true
              | _ => false
  | .drain => true
  | .comp n =>
    s.tx_in_progress &&
      (match s.tx_q with
       | [] => true
       | b :: _ => decide (n ≤ b.nbytes))

/-- Runs a sequence of events. -/
def runTx (s : TCPClientState) (es : List TxEvent) : TCPClientState :=
  es.foldl txStep s

/-- Every event of the sequence is valid in the state it is applied
to. -/
def validTx (s : TCPClientState) : List TxEvent → Bool
  | [] => true
  | e :: es => txValid s e && validTx (txStep s e) es

/-- The payloads of the successful enqueues of a trace, in order. -/
def enqueuedPayloads : List TxEvent → List (List Nat)
  | [] => []
  | .enq p :: es => p :: enqueuedPayloads es
  | _ :: es => enqueuedPayloads es

/-- The bytes still owed to the socket: the remaining regions of the
queued buffers, front first. -/
def pendingBytes (s : TCPClientState) : List Nat :=
  (s.tx_q.map MsgBuffer.dpos).flatten

/-- A freshly connected client: socket open, empty queue, no send in
flight, callbacks installed, nothing emitted. -/
def initClient : TCPClientState :=
  { socket_open := true
    tx_in_progress := false
    tx_q := []
    emitted := []
    stopped := false
    closed_cb_installed := true
    closed_cb_count := 0
    conn_id := 0 }

/-- Which thread invokes `close()`: the connection's (or acceptor's) own
io_service thread, or any other thread. -/
inductive CallerThread
  | ioThread
  | otherThread
deriving Repr, DecidableEq

namespace MAVConnTCPClient

/-- Function `MAVConnTCPClient::close`, called from thread `t`.  Under the
mutex: early return if `is_open()` is already false; otherwise shut
down, cancel and close the socket.  Then, only when the caller is not
the io thread, `stop()` (stop the io_service and join the io thread;
the code skips this on the io thread to avoid the self-join
exception).  Finally invoke `port_closed_cb` if installed. -/
def close (t : CallerThread) (s : TCPClientState) : TCPClientState :=
  if ¬ s.is_open then s
  else
    let s1 := { s with socket_open := false }
    let s2 := if t = .otherThread then { s1 with stopped := true } else s1
    if s2.closed_cb_installed then
      { s2 with closed_cb_count := s2.closed_cb_count + 1 }
    else s2

/-- A sequence of further `close()` calls from arbitrary threads. -/
def closeMany (ts : List CallerThread) (s : TCPClientState) : TCPClientState :=
  ts.foldl (fun s t => close t s) s

end MAVConnTCPClient

/-- State of one `MAVConnTCPServer`.

* `acceptor_open` — the listening socket's open flag, what the
  server's `is_open()` reads; cleared by `close()`.
* `io_stopped` — whether `io_service.stop()` has run.
* `thread_joinable` — whether `io_thread` is joinable (it is once
  `connect` started it and nobody joined it yet).
* `joined` — whether `close()` joined the io thread.
* `closed_cb_installed` / `closed_cb_count` — the server's
  `port_closed_cb`.
* `client_list` — the registry of accepted client connections. -/
structure TCPServerState where
  acceptor_open : Bool
  io_stopped : Bool
  thread_joinable : Bool
  joined : Bool
  closed_cb_installed : Bool
  closed_cb_count : Nat
  client_list : List TCPClientState := []
deriving Repr, DecidableEq

namespace MAVConnTCPServer

/-- Function `MAVConnTCPServer::close`, called from thread `t`.  Under the
mutex: early return if `is_open()` is already false; otherwise stop
the io_service and close the acceptor; then, with no thread check,
`io_thread.join()` — when the caller is the io thread itself this is a
self-join, which throws `std::system_error` (resource deadlock
avoided) before `port_closed_cb` can run.  The Bool of the result
records whether the call threw. -/
def close (t : CallerThread) (srv : TCPServerState) : TCPServerState × Bool :=
  if ¬ srv.acceptor_open then (srv, false)
  else
    let s1 := { srv with acceptor_open := false, io_stopped := true }
    if srv.thread_joinable ∧ t = .ioThread then (s1, true)
    else
      let s2 := { s1 with joined := srv.thread_joinable }
      if s2.closed_cb_installed then
        ({ s2 with closed_cb_count := s2.closed_cb_count + 1 }, false)
      else (s2, false)

/-- A sequence of further `close()` calls from arbitrary threads
(each call's thrown-or-not flag is dropped; the state evolution is
what matters for idempotence). -/
def closeMany (ts : List CallerThread) (srv : TCPServerState) : TCPServerState :=
  ts.foldl (fun s t => (close t s).1) srv

/-- Function `MAVConnTCPServer::get_status`: starts from a zero-initialized
`mavlink_status_t` and, iterating the registry under the mutex, adds
each client's counters field-wise.  Nothing is persisted: the result
is recomputed from `client_list` at every call. -/
def get_status (srv : TCPServerState) : MavlinkStatus :=
  srv.client_list.foldl
    (fun acc c =>
      { packet_rx_success_count :=
          acc.packet_rx_success_count + c.status.packet_rx_success_count
        packet_rx_drop_count :=
          acc.packet_rx_drop_count + c.status.packet_rx_drop_count
        buffer_overrun := acc.buffer_overrun + c.status.buffer_overrun
        parse_error := acc.parse_error + c.status.parse_error })
    ⟨0, 0, 0, 0⟩

/-- Function `MAVConnTCPServer::get_iostat`: same aggregation for the I/O
counters. -/
def get_iostat (srv : TCPServerState) : IOStat :=
  srv.client_list.foldl
    (fun acc c =>
      { tx_total_bytes := acc.tx_total_bytes + c.iostat.tx_total_bytes
        rx_total_bytes := acc.rx_total_bytes + c.iostat.rx_total_bytes
        tx_speed := acc.tx_speed + c.iostat.tx_speed
        rx_speed := acc.rx_speed + c.iostat.rx_speed })
    ⟨0, 0, 0, 0⟩

/-- Function `MAVConnTCPServer::send_bytes`: iterates the registry under the
mutex calling each client's `send_bytes`.  The loop body has no
try/catch, so a thrown `length_error` (queue overflow) propagates and
aborts the loop; a channel-closed drop returns normally and the loop
continues.  The result is the list of outcomes of the clients that
were actually attempted, in registry order, paired with the updated
registry (clients after an abort keep their old state). -/
def send_bytes (clients : List TCPClientState) (p : List Nat) :
    List SendOutcome × List TCPClientState :=
  match clients with
  | [] => ([], [])
  | c :: rest =>
    match MAVConnTCPClient.send_bytes c p with
    | (.overflowThrow, c') => ([.overflowThrow], c' :: rest)
    | (o, c') =>
      let r := send_bytes rest p
      (o :: r.1, c' :: r.2)

/-- Function `MAVConnTCPServer::send_message`: same loop over
`MAVConnTCPClient::send_message`. -/
def send_message (clients : List TCPClientState) (p : List Nat) :
    List SendOutcome × List TCPClientState :=
  match clients with
  | [] => ([], [])
  | c :: rest =>
    match MAVConnTCPClient.send_message c p with
    | (.overflowThrow, c') => ([.overflowThrow], c' :: rest)
    | (o, c') =>
      let r := send_message rest p
      (o :: r.1, c' :: r.2)

/-- Function `MAVConnTCPServer::client_closed(weak_instp)`: lock the weak
pointer; if it still resolves, remove that client from the registry
under the mutex (`std::list::remove` erases every element comparing
equal to the shared pointer — pointer identity, modelled by the unique
`conn_id`); if it no longer resolves, do nothing.  `weak = none`
models an expired weak pointer. -/
def client_closed (client_list : List TCPClientState)
    (weak : Option TCPClientState) : List TCPClientState :=
  match weak with
  | none => client_list
  | some instp => client_list.filter (fun c => c.conn_id ≠ instp.conn_id)

end MAVConnTCPServer

/-! ## Helper lemmas about the send machine -/

/-- List fact: the next `n` bytes of the remainder at `p`, followed by
the remainder at `p + n`, reassemble the remainder at `p`. -/
lemma take_drop_chunk (l : List Nat) (p n : Nat) :
    (l.drop p).take n ++ l.drop (p + n) = l.drop p := by
  have h : l.drop (p + n) = (l.drop p).drop n := by
    rw [List.drop_drop, Nat.add_comm]
  rw [h, List.take_append_drop]

/-- Advancing the cursor by `n` splits the remaining region: the
consumed chunk followed by the new remaining region is the old one. -/
lemma dpos_take_chunk (b : MsgBuffer) (n : Nat) :
    b.dpos.take n ++ MsgBuffer.dpos ⟨b.payload, b.pos + n⟩ = b.dpos := by
  unfold MsgBuffer.dpos
  exact take_drop_chunk b.payload b.pos n

/-- When advancing by `n` exhausts the buffer, the consumed chunk is
the whole remaining region. -/
lemma dpos_take_all (b : MsgBuffer) (n : Nat)
    (h : MsgBuffer.nbytes ⟨b.payload, b.pos + n⟩ = 0) :
    b.dpos.take n = b.dpos := by
  have h' : b.payload.length - (b.pos + n) = 0 := h
  apply List.take_of_length_le
  unfold MsgBuffer.dpos
  simp only [List.length_drop]
  omega

/-- A successful enqueue appends one fresh buffer and touches nothing
else. -/
lemma txStep_enq_eq (s : TCPClientState) (p : List Nat)
    (hv : txValid s (.enq p) = true) :
    txStep s (.enq p) = { s with tx_q := s.tx_q ++ [⟨p, 0⟩] } := by
  unfold txValid MAVConnTCPClient.send_bytes at hv
  unfold txStep MAVConnTCPClient.send_bytes
  by_cases ho : s.is_open
  · by_cases hl : MAX_TXQ_SIZE ≤ s.tx_q.length
    · simp [ho, hl] at hv
    · simp [ho, hl]
  · simp [ho] at hv

/-- An enqueue extends the pending byte stream by the new payload. -/
lemma pendingBytes_enq (s : TCPClientState) (p : List Nat)
    (hv : txValid s (.enq p) = true) :
    pendingBytes (txStep s (.enq p)) = pendingBytes s ++ p := by
  rw [txStep_enq_eq s p hv]
  simp [pendingBytes, MsgBuffer.dpos]

/-- The posted drain changes only the in-flight flag. -/
lemma txStep_drain_fields (s : TCPClientState) :
    (txStep s .drain).emitted = s.emitted ∧ (txStep s .drain).tx_q = s.tx_q := by
  simp only [txStep]
  unfold MAVConnTCPClient.do_send_post
  by_cases h1 : s.tx_in_progress
  · simp [h1]
  · by_cases h2 : s.tx_q.isEmpty <;> simp [h1, h2]

/-- Validity of a completion on a non-empty queue bounds `n` by the
front buffer's remaining size. -/
lemma txValid_comp_le (s : TCPClientState) (n : Nat) (b : MsgBuffer)
    (rest : List MsgBuffer) (hq : s.tx_q = b :: rest)
    (hv : txValid s (.comp n) = true) : n ≤ b.nbytes := by
  unfold txValid at hv
  rw [hq] at hv
  simp at hv
  exact hv.2

/-- The emitted bytes after a completion on a non-empty queue. -/
lemma tx_complete_emitted (s : TCPClientState) (n : Nat) (b : MsgBuffer)
    (rest : List MsgBuffer) (hq : s.tx_q = b :: rest) :
    (txStep s (.comp n)).emitted = s.emitted ++ b.dpos.take n := by
  simp [txStep, MAVConnTCPClient.tx_complete, hq]

/-- The queue after a completion on a non-empty queue: cursor advanced
by exactly `n`, buffer popped exactly when its remaining count hits
zero. -/
lemma tx_complete_tx_q (s : TCPClientState) (n : Nat) (b : MsgBuffer)
    (rest : List MsgBuffer) (hq : s.tx_q = b :: rest) :
    (txStep s (.comp n)).tx_q =
      if MsgBuffer.nbytes ⟨b.payload, b.pos + n⟩ = 0 then rest
      else ⟨b.payload, b.pos + n⟩ :: rest := by
  simp [txStep, MAVConnTCPClient.tx_complete, hq]

/-- A completion on an empty queue only clears the in-flight flag. -/
lemma tx_complete_empty (s : TCPClientState) (n : Nat) (hq : s.tx_q = []) :
    txStep s (.comp n) = { s with tx_in_progress := false } := by
  simp [txStep, MAVConnTCPClient.tx_complete, hq]

/-- A write completion moves bytes from the pending stream to the
emitted stream and nothing else: the concatenation of the two is
preserved. -/
lemma emitted_pending_comp (s : TCPClientState) (n : Nat)
    (_hv : txValid s (.comp n) = true) :
    (txStep s (.comp n)).emitted ++ pendingBytes (txStep s (.comp n)) =
      s.emitted ++ pendingBytes s := by
  rcases hq : s.tx_q with _ | ⟨b, rest⟩
  · rw [tx_complete_empty s n hq]
    unfold pendingBytes
    rw [hq]
  · unfold pendingBytes
    rw [tx_complete_emitted s n b rest hq, tx_complete_tx_q s n b rest hq, hq]
    by_cases hz : MsgBuffer.nbytes ⟨b.payload, b.pos + n⟩ = 0
    · rw [if_pos hz, dpos_take_all b n hz]
      simp
    · rw [if_neg hz]
      simp only [List.map_cons, List.flatten_cons]
      rw [List.append_assoc, ← List.append_assoc (b.dpos.take n), dpos_take_chunk]

/-- Core stream invariant: along any valid event sequence, the bytes
already emitted followed by the bytes still pending equal the starting
emitted and pending streams followed by all successfully enqueued
payloads, concatenated in enqueue order. -/
lemma tx_stream_invariant (es : List TxEvent) :
    ∀ s : TCPClientState, validTx s es = true →
    (runTx s es).emitted ++ pendingBytes (runTx s es) =
      s.emitted ++ pendingBytes s ++ (enqueuedPayloads es).flatten := by
  induction es with
  | nil => intro s _; simp [runTx, enqueuedPayloads]
  | cons e es ih =>
    intro s hv
    unfold validTx at hv
    rw [Bool.and_eq_true] at hv
    have hrun : runTx s (e :: es) = runTx (txStep s e) es := by
      simp [runTx]
    rw [hrun, ih (txStep s e) hv.2]
    rcases e with p | _ | n
    · have hem : (txStep s (.enq p)).emitted = s.emitted := by
        rw [txStep_enq_eq s p hv.1]
      rw [hem, pendingBytes_enq s p hv.1,
        show enqueuedPayloads (TxEvent.enq p :: es) = p :: enqueuedPayloads es
          from rfl]
      simp
    · have h := txStep_drain_fields s
      have hpend : pendingBytes (txStep s .drain) = pendingBytes s := by
        unfold pendingBytes
        rw [h.2]
      rw [h.1, hpend,
        show enqueuedPayloads (TxEvent.drain :: es) = enqueuedPayloads es
          from rfl]
    · rw [emitted_pending_comp s n hv.1,
        show enqueuedPayloads (TxEvent.comp n :: es) = enqueuedPayloads es
          from rfl]

/-! ## Queue-shape invariant helpers -/

/-- Every queued buffer's cursor is within its payload. -/
def QInv (s : TCPClientState) : Prop :=
  ∀ b ∈ s.tx_q, b.pos ≤ b.payload.length

/-- Each valid step preserves the cursor-bound invariant. -/
lemma qinv_step (s : TCPClientState) (e : TxEvent)
    (hq : QInv s) (hv : txValid s e = true) : QInv (txStep s e) := by
  rcases e with p | _ | n
  · rw [txStep_enq_eq s p hv]
    intro b hb
    simp at hb
    rcases hb with hb | hb
    · exact hq b hb
    · simp [hb]
  · intro b hb
    rw [(txStep_drain_fields s).2] at hb
    exact hq b hb
  · rcases hqq : s.tx_q with _ | ⟨b, rest⟩
    · intro c hc
      rw [tx_complete_empty s n hqq] at hc
      simp [hqq] at hc
    · have hn : n ≤ b.nbytes := txValid_comp_le s n b rest hqq hv
      have hb : b.pos ≤ b.payload.length := hq b (by rw [hqq]; simp)
      intro c hc
      rw [tx_complete_tx_q s n b rest hqq] at hc
      by_cases hz : MsgBuffer.nbytes ⟨b.payload, b.pos + n⟩ = 0
      · rw [if_pos hz] at hc
        exact hq c (by rw [hqq]; exact List.mem_cons_of_mem b hc)
      · rw [if_neg hz] at hc
        rcases List.mem_cons.mp hc with hc | hc
        · subst hc
          show b.pos + n ≤ b.payload.length
          have hn' : n ≤ b.payload.length - b.pos := hn
          omega
        · exact hq c (by rw [hqq]; exact List.mem_cons_of_mem b hc)

/-- The cursor-bound invariant holds along every valid run. -/
lemma qinv_run (es : List TxEvent) :
    ∀ s : TCPClientState, validTx s es = true → QInv s → QInv (runTx s es) := by
  induction es with
  | nil => intro s _ hq; simpa [runTx] using hq
  | cons e es ih =>
    intro s hv hq
    unfold validTx at hv
    rw [Bool.and_eq_true] at hv
    have hrun : runTx s (e :: es) = runTx (txStep s e) es := by simp [runTx]
    rw [hrun]
    exact ih (txStep s e) hv.2 (qinv_step s e hq hv.1)

/-! ## Concrete states used by witnesses and counterexamples -/

/-- A connection whose socket has been closed while its queue still
holds `MAX_TXQ_SIZE` buffers (fill the queue while open, then close:
nothing clears `tx_q`). -/
def sFullClosed : TCPClientState :=
  { initClient with
    socket_open := false
    tx_q := List.replicate MAX_TXQ_SIZE ⟨[0], 0⟩ }

/-- An open connection whose queue is at capacity. -/
def sFullOpen : TCPClientState :=
  { initClient with tx_q := List.replicate MAX_TXQ_SIZE ⟨[0], 0⟩ }

/-- A closed connection with one queued buffer. -/
def sClosed : TCPClientState :=
  { initClient with socket_open := false, tx_q := [⟨[9], 0⟩] }

/-- A concrete valid trace: two messages, the first drained in two
partial writes with the second enqueued mid-transmission. -/
def esFifo : List TxEvent :=
  [.enq [1, 2, 3], .drain, .comp 2, .enq [4, 5], .comp 1, .comp 2]

/-! ## Claim C1 -/

/-- C1: for every sequence of successfully enqueued payloads and every
sequence of partial-write completions (each advancing the front
buffer's cursor by the bytes actually written), once the queue has
drained, the byte stream emitted on the socket by the send loop equals
the concatenation of the payloads in enqueue (FIFO) order — no byte
duplicated, dropped, interleaved or reordered. -/
theorem c1_send_fifo_byte_exact (es : List TxEvent)
    (hv : validTx initClient es = true)
    (hq : (runTx initClient es).tx_q = []) :
    (runTx initClient es).emitted = (enqueuedPayloads es).flatten := by
  have h := tx_stream_invariant es initClient hv
  unfold pendingBytes at h
  rw [hq] at h
  simpa [initClient] using h

/-- Witness for C1 on the concrete trace `esFifo`. -/
theorem c1_send_fifo_byte_exact_witness :
    (runTx initClient esFifo).emitted = (enqueuedPayloads esFifo).flatten :=
  c1_send_fifo_byte_exact esFifo (by decide) (by decide)

/-! ## Claim C7 -/

/-- C7: every queued buffer satisfies `0 ≤ position ≤ length` in every
state reachable by a valid run (`0 ≤` is inherent to `Nat`); and every
send-completion of `n` bytes on a non-empty queue advances the front
buffer's position by exactly `n`, removing the buffer exactly when the
new position equals its length. -/
theorem c7_queue_cursor_invariant :
    (∀ es : List TxEvent, validTx initClient es = true →
      ∀ b ∈ (runTx initClient es).tx_q, b.pos ≤ b.payload.length) ∧
    (∀ (s : TCPClientState) (n : Nat) (b : MsgBuffer) (rest : List MsgBuffer),
      s.tx_q = b :: rest → QInv s → txValid s (.comp n) = true →
      (txStep s (.comp n)).tx_q =
        if b.pos + n = b.payload.length then rest
        else ⟨b.payload, b.pos + n⟩ :: rest) := by
  constructor
  · intro es hv
    exact qinv_run es initClient hv (by intro b hb; simp [initClient] at hb)
  · intro s n b rest hs hQ hv
    have hb : b.pos ≤ b.payload.length := hQ b (by rw [hs]; simp)
    have hn : n ≤ b.payload.length - b.pos := txValid_comp_le s n b rest hs hv
    rw [tx_complete_tx_q s n b rest hs]
    by_cases hz : MsgBuffer.nbytes ⟨b.payload, b.pos + n⟩ = 0
    · have h0 : b.payload.length - (b.pos + n) = 0 := hz
      rw [if_pos hz, if_pos (by omega : b.pos + n = b.payload.length)]
    · have h0 : b.payload.length - (b.pos + n) ≠ 0 := hz
      rw [if_neg hz, if_neg (by omega : ¬ b.pos + n = b.payload.length)]

/-- Witness for C7: the reachability part on the trace `esFifo`, and
the completion part on a mid-transmission state. -/
theorem c7_queue_cursor_invariant_witness :
    (∀ b ∈ (runTx initClient esFifo).tx_q, b.pos ≤ b.payload.length) ∧
    (txStep { initClient with
                tx_q := [⟨[7, 8], 1⟩], tx_in_progress := true }
        (.comp 1)).tx_q =
      if (1 : Nat) + 1 = 2 then [] else [⟨[7, 8], 1 + 1⟩] :=
  ⟨c7_queue_cursor_invariant.1 esFifo (by decide),
   c7_queue_cursor_invariant.2
     { initClient with tx_q := [⟨[7, 8], 1⟩], tx_in_progress := true }
     1 ⟨[7, 8], 1⟩ [] rfl
     (by intro b hb; simp at hb; subst hb; decide) (by decide)⟩

/-! ## Claim C10 -/

/-- C10: if the outbound queue is observed empty (under the mutex) when
a write completes, the completion handler clears `tx_in_progress` and
returns without advancing any cursor, removing any buffer, or chaining
a further write: the state changes in no other way. -/
theorem c10_complete_on_empty_queue (s : TCPClientState) (n : Nat)
    (h : s.tx_q = []) :
    MAVConnTCPClient.tx_complete s n = { s with tx_in_progress := false } :=
  tx_complete_empty s n h

/-- Witness for C10 at a concrete state with a write marked in flight
but an empty queue. -/
theorem c10_complete_on_empty_queue_witness :
    MAVConnTCPClient.tx_complete { initClient with tx_in_progress := true } 5 =
      { { initClient with tx_in_progress := true } with tx_in_progress := false } :=
  c10_complete_on_empty_queue { initClient with tx_in_progress := true } 5 rfl

/-! ## Claim C2 -/

/-- C2 counterexample: a connection whose queue already holds
`MAX_TXQ_SIZE` elements but whose socket is closed is NOT rejected
with the queue-overflow error — the earlier `is_open()` check wins and
the call is silently dropped — refuting the claim's universal
quantification over every connection. -/
theorem c2_full_queue_closed_counterexample :
    (MAVConnTCPClient.send_bytes sFullClosed [1]).1 ≠ SendOutcome.overflowThrow ∧
    (MAVConnTCPClient.send_message sFullClosed [1]).1 ≠ SendOutcome.overflowThrow ∧
    (MAVConnTCPClient.send_bytes sFullClosed [1]).1 = SendOutcome.closedDrop := by
  refine ⟨by decide, by decide, by decide⟩

/-- C2 amended: for every OPEN connection whose queue already holds at
least `MAX_TXQ_SIZE` elements, `send_bytes`/`send_message` is rejected
immediately (a thrown `length_error`, no blocking wait) and the state
— queue contents, order, cursors — is left unchanged; and an enqueue
never pushes the element count past the bound. -/
theorem c2_amended_overflow_reject (s : TCPClientState) (p : List Nat)
    (ho : s.is_open = true) (hf : MAX_TXQ_SIZE ≤ s.tx_q.length) :
    MAVConnTCPClient.send_bytes s p = (.overflowThrow, s) ∧
    MAVConnTCPClient.send_message s p = (.overflowThrow, s) ∧
    (∀ (s' : TCPClientState) (q : List Nat),
      s'.tx_q.length ≤ MAX_TXQ_SIZE →
      ((MAVConnTCPClient.send_bytes s' q).2).tx_q.length ≤ MAX_TXQ_SIZE) := by
  refine ⟨?_, ?_, ?_⟩
  · simp [MAVConnTCPClient.send_bytes, ho, hf]
  · simp [MAVConnTCPClient.send_message, ho, hf]
  · intro s' q hb
    unfold MAVConnTCPClient.send_bytes
    by_cases ho' : s'.is_open
    · by_cases hl : MAX_TXQ_SIZE ≤ s'.tx_q.length
      · simp [ho', hl]
        exact hb
      · simp [ho', hl]
        omega
    · simp [ho']
      exact hb

/-- Witness for C2 (amended) at a full open connection. -/
theorem c2_amended_overflow_reject_witness :
    MAVConnTCPClient.send_bytes sFullOpen [2] = (.overflowThrow, sFullOpen) ∧
    MAVConnTCPClient.send_message sFullOpen [2] = (.overflowThrow, sFullOpen) ∧
    (∀ (s' : TCPClientState) (q : List Nat),
      s'.tx_q.length ≤ MAX_TXQ_SIZE →
      ((MAVConnTCPClient.send_bytes s' q).2).tx_q.length ≤ MAX_TXQ_SIZE) :=
  c2_amended_overflow_reject sFullOpen [2] (by decide) (by simp [sFullOpen])

/-! ## Claim C3 -/

/-- C3 counterexample: on a connection that is not open, the send call
returns normally — no error of any kind is surfaced to the caller (the
only caller-visible error channel of these functions is a thrown
exception), and the message is silently dropped; this refutes the
claimed ChannelClosed rejection surfaced to the caller. -/
theorem c3_closed_silent_counterexample :
    ((MAVConnTCPClient.send_bytes sClosed [7]).1).surfacesError = false ∧
    ((MAVConnTCPClient.send_message sClosed [7]).1).surfacesError = false ∧
    (MAVConnTCPClient.send_bytes sClosed [7]).2 = sClosed := by
  refine ⟨by decide, by decide, by decide⟩

/-- C3 amended: a send on a connection that is not in the Open state is
rejected immediately — nothing is enqueued and the outbound queue (the
whole state) is left unchanged — but the rejection is a silent drop
behind a log line: the call returns normally and no ChannelClosed
error is surfaced to the caller. -/
theorem c3_amended_closed_silent_drop (s : TCPClientState) (p : List Nat)
    (h : s.is_open = false) :
    MAVConnTCPClient.send_bytes s p = (.closedDrop, s) ∧
    MAVConnTCPClient.send_message s p = (.closedDrop, s) ∧
    SendOutcome.surfacesError .closedDrop = false := by
  refine ⟨?_, ?_, rfl⟩
  · simp [MAVConnTCPClient.send_bytes, h]
  · simp [MAVConnTCPClient.send_message, h]

/-- Witness for C3 (amended) at a concrete closed connection. -/
theorem c3_amended_closed_silent_drop_witness :
    MAVConnTCPClient.send_bytes sClosed [3] = (.closedDrop, sClosed) ∧
    MAVConnTCPClient.send_message sClosed [3] = (.closedDrop, sClosed) ∧
    SendOutcome.surfacesError .closedDrop = false :=
  c3_amended_closed_silent_drop sClosed [3] (by decide)

/-! ## Close-path lemmas -/

/-- A close on an already-closed client connection is an early return:
the state is untouched and no callback runs. -/
lemma close_of_not_open (t : CallerThread) (s : TCPClientState)
    (h : s.socket_open = false) : MAVConnTCPClient.close t s = s := by
  unfold MAVConnTCPClient.close
  simp [TCPClientState.is_open, h]

/-- A close on an open client connection closes the socket, whatever
thread calls it. -/
lemma close_socket_open (t : CallerThread) (s : TCPClientState)
    (h : s.socket_open = true) :
    (MAVConnTCPClient.close t s).socket_open = false := by
  unfold MAVConnTCPClient.close
  simp [TCPClientState.is_open, h]
  cases t <;> by_cases hc : s.closed_cb_installed <;> simp [hc]

/-- A close on an open client connection with the callback installed
invokes it once. -/
lemma close_count (t : CallerThread) (s : TCPClientState)
    (ho : s.socket_open = true) (hi : s.closed_cb_installed = true) :
    (MAVConnTCPClient.close t s).closed_cb_count = s.closed_cb_count + 1 := by
  unfold MAVConnTCPClient.close
  simp [TCPClientState.is_open, ho]
  cases t <;> simp [hi]

/-- Any number of further closes on a closed client connection is a
no-op. -/
lemma closeMany_of_not_open : ∀ (ts : List CallerThread) (s : TCPClientState),
    s.socket_open = false → MAVConnTCPClient.closeMany ts s = s := by
  intro ts
  induction ts with
  | nil => intro s _; rfl
  | cons t ts ih =>
    intro s h
    have hstep : MAVConnTCPClient.closeMany (t :: ts) s =
        MAVConnTCPClient.closeMany ts (MAVConnTCPClient.close t s) := rfl
    rw [hstep, close_of_not_open t s h]
    exact ih s h

/-- A close on an already-closed server acceptor is an early return. -/
lemma server_close_of_not_open (t : CallerThread) (srv : TCPServerState)
    (h : srv.acceptor_open = false) :
    MAVConnTCPServer.close t srv = (srv, false) := by
  unfold MAVConnTCPServer.close
  simp [h]

/-- A close on an open server acceptor from a non-reactor thread does
not throw, closes the acceptor, and invokes the callback once. -/
lemma server_close_other (srv : TCPServerState)
    (ho : srv.acceptor_open = true) (hi : srv.closed_cb_installed = true) :
    (MAVConnTCPServer.close .otherThread srv).2 = false ∧
    ((MAVConnTCPServer.close .otherThread srv).1).closed_cb_count =
      srv.closed_cb_count + 1 ∧
    ((MAVConnTCPServer.close .otherThread srv).1).acceptor_open = false := by
  unfold MAVConnTCPServer.close
  simp [ho, hi]

/-- Any number of further closes on a closed server acceptor is a
no-op. -/
lemma server_closeMany_of_not_open :
    ∀ (ts : List CallerThread) (srv : TCPServerState),
    srv.acceptor_open = false → MAVConnTCPServer.closeMany ts srv = srv := by
  intro ts
  induction ts with
  | nil => intro srv _; rfl
  | cons t ts ih =>
    intro srv h
    have hstep : MAVConnTCPServer.closeMany (t :: ts) srv =
        MAVConnTCPServer.closeMany ts (MAVConnTCPServer.close t srv).1 := rfl
    rw [hstep, server_close_of_not_open t srv h]
    exact ih srv h

/-- A freshly started server: acceptor open, io thread running and
joinable, callback installed. -/
def srvOpen : TCPServerState :=
  { acceptor_open := true
    io_stopped := false
    thread_joinable := true
    joined := false
    closed_cb_installed := true
    closed_cb_count := 0 }

/-! ## Claim C4 -/

/-- C4 counterexample: close() triggered on the acceptor's own reactor
thread (exactly what the accept-error handler does) hits the
unconditional `io_thread.join()` — a self-join that throws before the
closed callback can run: an error is raised and the callback count
stays 0, refuting exactly-once invocation with no error for every
connection and every triggering thread. -/
theorem c4_reactor_close_counterexample :
    (MAVConnTCPServer.close .ioThread srvOpen).2 = true ∧
    ((MAVConnTCPServer.close .ioThread srvOpen).1).closed_cb_count = 0 := by
  refine ⟨by decide, by decide⟩

/-- C4 amended: close() is idempotent and invokes the installed closed
callback exactly once for the client connection from any thread (caller
thread or reactor, in any combination and any number of repetitions),
and for the server acceptor when the first close comes from a
non-reactor thread; a server close issued from the acceptor's own
reactor thread instead throws from the self-join before the callback
(see the counterexample). -/
theorem c4_amended_idempotent_close (s : TCPClientState) (srv : TCPServerState)
    (t : CallerThread) (ts : List CallerThread)
    (ho : s.socket_open = true) (hi : s.closed_cb_installed = true)
    (hso : srv.acceptor_open = true) (hsi : srv.closed_cb_installed = true) :
    (MAVConnTCPClient.closeMany ts (MAVConnTCPClient.close t s) =
        MAVConnTCPClient.close t s ∧
      (MAVConnTCPClient.close t s).closed_cb_count = s.closed_cb_count + 1) ∧
    ((MAVConnTCPServer.close .otherThread srv).2 = false ∧
      ((MAVConnTCPServer.close .otherThread srv).1).closed_cb_count =
        srv.closed_cb_count + 1 ∧
      MAVConnTCPServer.closeMany ts (MAVConnTCPServer.close .otherThread srv).1 =
        (MAVConnTCPServer.close .otherThread srv).1) := by
  have hs := server_close_other srv hso hsi
  refine ⟨⟨?_, close_count t s ho hi⟩, hs.1, hs.2.1, ?_⟩
  · exact closeMany_of_not_open ts _ (close_socket_open t s ho)
  · exact server_closeMany_of_not_open ts _ hs.2.2

/-- Witness for C4 (amended) at a fresh client, a fresh server, a
reactor-thread first close and two further closes. -/
theorem c4_amended_idempotent_close_witness :
    (MAVConnTCPClient.closeMany [CallerThread.otherThread, CallerThread.ioThread]
        (MAVConnTCPClient.close .ioThread initClient) =
      MAVConnTCPClient.close .ioThread initClient ∧
      (MAVConnTCPClient.close .ioThread initClient).closed_cb_count =
        initClient.closed_cb_count + 1) ∧
    ((MAVConnTCPServer.close .otherThread srvOpen).2 = false ∧
      ((MAVConnTCPServer.close .otherThread srvOpen).1).closed_cb_count =
        srvOpen.closed_cb_count + 1 ∧
      MAVConnTCPServer.closeMany [CallerThread.otherThread, CallerThread.ioThread]
          (MAVConnTCPServer.close .otherThread srvOpen).1 =
        (MAVConnTCPServer.close .otherThread srvOpen).1) :=
  c4_amended_idempotent_close initClient srvOpen .ioThread
    [CallerThread.otherThread, CallerThread.ioThread]
    (by decide) (by decide) (by decide) (by decide)

/-! ## Claim C5 -/

/-- C5, evaluated at the failing input: the client's close from its own
reactor thread skips stop/join (as the claim states, `stopped` stays
false) while still finishing the close, and from another thread it
stops and joins; the server's close from its own reactor thread does
NOT skip the join — the unconditional self-join throws (flag `true`),
contradicting the claim for the acceptor. -/
theorem c5_self_join_evaluation :
    (MAVConnTCPClient.close .ioThread initClient).stopped = false ∧
    (MAVConnTCPClient.close .ioThread initClient).socket_open = false ∧
    (MAVConnTCPClient.close .otherThread initClient).stopped = true ∧
    (MAVConnTCPServer.close .ioThread srvOpen).2 = true ∧
    (MAVConnTCPServer.close .otherThread srvOpen).2 = false := by
  refine ⟨by decide, by decide, by decide, by decide, by decide⟩

/-! ## Claim C6 -/

/-- An open client at queue capacity, first in the broadcast registry
of the counterexample. -/
def cOverflow : TCPClientState := { sFullOpen with conn_id := 1 }

/-- An idle open client, second in the broadcast registry. -/
def cIdle : TCPClientState := { initClient with conn_id := 2 }

/-- Another idle client with a distinct channel id. -/
def cOther : TCPClientState := { initClient with conn_id := 3 }

/-- C6 counterexample: with a queue-full client first in the registry,
the broadcast attempts only one of the two clients — the overflow
exception thrown by the first client's send propagates out of the
registry loop and the second client is never attempted. -/
theorem c6_broadcast_abort_counterexample :
    ((MAVConnTCPServer.send_bytes [cOverflow, cIdle] [5]).1).length = 1 ∧
    ([cOverflow, cIdle] : List TCPClientState).length = 2 := by
  have h1 : MAVConnTCPClient.send_bytes cOverflow [5] = (.overflowThrow, cOverflow) := by
    unfold MAVConnTCPClient.send_bytes
    simp [cOverflow, sFullOpen, initClient, TCPClientState.is_open]
  refine ⟨?_, rfl⟩
  simp [MAVConnTCPServer.send_bytes, h1]

/-- C6 amended: the broadcast attempts every client of the registry in
order as long as no client's send throws; in particular a closed
client's silent drop does not prevent delivery attempts to the
remaining clients; but a queue-overflow exception thrown by one
client's send aborts the loop, skipping every client after it. -/
theorem c6_amended_broadcast (p : List Nat) :
    (∀ cs : List TCPClientState,
      (∀ c ∈ cs, (MAVConnTCPClient.send_bytes c p).1 ≠ SendOutcome.overflowThrow) →
      ((MAVConnTCPServer.send_bytes cs p).1).length = cs.length) ∧
    (∀ cs : List TCPClientState,
      (∀ c ∈ cs, (MAVConnTCPClient.send_message c p).1 ≠ SendOutcome.overflowThrow) →
      ((MAVConnTCPServer.send_message cs p).1).length = cs.length) ∧
    (∀ (c : TCPClientState) (rest : List TCPClientState),
      (MAVConnTCPClient.send_bytes c p).1 = SendOutcome.closedDrop →
      MAVConnTCPServer.send_bytes (c :: rest) p =
        (SendOutcome.closedDrop :: (MAVConnTCPServer.send_bytes rest p).1,
          c :: (MAVConnTCPServer.send_bytes rest p).2)) ∧
    (∀ (c : TCPClientState) (rest : List TCPClientState),
      (MAVConnTCPClient.send_bytes c p).1 = SendOutcome.overflowThrow →
      MAVConnTCPServer.send_bytes (c :: rest) p =
        ([SendOutcome.overflowThrow], c :: rest)) := by
  refine ⟨?_, ?_, ?_, ?_⟩
  · intro cs
    induction cs with
    | nil => intro _; rfl
    | cons c rest ih =>
      intro h
      rcases ho : MAVConnTCPClient.send_bytes c p with ⟨o, c2⟩
      have hno : o ≠ SendOutcome.overflowThrow := by
        have := h c (by simp)
        rw [ho] at this
        exact this
      cases o
      · simp [MAVConnTCPServer.send_bytes, ho]
        exact ih (fun c hc => h c (by simp [hc]))
      · simp [MAVConnTCPServer.send_bytes, ho]
        exact ih (fun c hc => h c (by simp [hc]))
      · exact absurd rfl hno
  · intro cs
    induction cs with
    | nil => intro _; rfl
    | cons c rest ih =>
      intro h
      rcases ho : MAVConnTCPClient.send_message c p with ⟨o, c2⟩
      have hno : o ≠ SendOutcome.overflowThrow := by
        have := h c (by simp)
        rw [ho] at this
        exact this
      cases o
      · simp [MAVConnTCPServer.send_message, ho]
        exact ih (fun c hc => h c (by simp [hc]))
      · simp [MAVConnTCPServer.send_message, ho]
        exact ih (fun c hc => h c (by simp [hc]))
      · exact absurd rfl hno
  · intro c rest h
    have h2 : MAVConnTCPClient.send_bytes c p = (.closedDrop, c) := by
      unfold MAVConnTCPClient.send_bytes at h ⊢
      by_cases ho : c.is_open
      · by_cases hl : MAX_TXQ_SIZE ≤ c.tx_q.length
        · simp [ho, hl] at h
        · simp [ho, hl] at h
      · simp [ho]
    simp [MAVConnTCPServer.send_bytes, h2]
  · intro c rest h
    have h2 : MAVConnTCPClient.send_bytes c p = (.overflowThrow, c) := by
      unfold MAVConnTCPClient.send_bytes at h ⊢
      by_cases ho : c.is_open
      · by_cases hl : MAX_TXQ_SIZE ≤ c.tx_q.length
        · simp [ho, hl]
        · simp [ho, hl] at h
      · simp [ho] at h
    simp [MAVConnTCPServer.send_bytes, h2]

/-- Witness for C6 (amended): a two-client registry with one closed
client first — both clients are attempted. -/
theorem c6_amended_broadcast_witness :
    ((MAVConnTCPServer.send_bytes [sClosed, cIdle] [5]).1).length =
      ([sClosed, cIdle] : List TCPClientState).length :=
  (c6_amended_broadcast [5]).1 [sClosed, cIdle] (by decide)

/-! ## Claim C8 -/

/-- Folding the status-summing loop body from any accumulator adds the
field-wise sums of the list. -/
lemma get_status_foldl (l : List TCPClientState) :
    ∀ acc : MavlinkStatus,
    List.foldl
      (fun acc c =>
        { packet_rx_success_count :=
            acc.packet_rx_success_count + c.status.packet_rx_success_count
          packet_rx_drop_count :=
            acc.packet_rx_drop_count + c.status.packet_rx_drop_count
          buffer_overrun := acc.buffer_overrun + c.status.buffer_overrun
          parse_error := acc.parse_error + c.status.parse_error })
      acc l =
    { packet_rx_success_count := acc.packet_rx_success_count +
        (l.map (fun c => c.status.packet_rx_success_count)).sum
      packet_rx_drop_count := acc.packet_rx_drop_count +
        (l.map (fun c => c.status.packet_rx_drop_count)).sum
      buffer_overrun := acc.buffer_overrun +
        (l.map (fun c => c.status.buffer_overrun)).sum
      parse_error := acc.parse_error +
        (l.map (fun c => c.status.parse_error)).sum } := by
  induction l with
  | nil => intro acc; simp
  | cons c rest ih =>
    intro acc
    simp only [List.foldl_cons, List.map_cons, List.sum_cons]
    rw [ih]
    simp only [MavlinkStatus.mk.injEq]
    refine ⟨by omega, by omega, by omega, by omega⟩

/-- Folding the iostat-summing loop body from any accumulator adds the
field-wise sums of the list. -/
lemma get_iostat_foldl (l : List TCPClientState) :
    ∀ acc : IOStat,
    List.foldl
      (fun acc c =>
        { tx_total_bytes := acc.tx_total_bytes + c.iostat.tx_total_bytes
          rx_total_bytes := acc.rx_total_bytes + c.iostat.rx_total_bytes
          tx_speed := acc.tx_speed + c.iostat.tx_speed
          rx_speed := acc.rx_speed + c.iostat.rx_speed })
      acc l =
    { tx_total_bytes := acc.tx_total_bytes +
        (l.map (fun c => c.iostat.tx_total_bytes)).sum
      rx_total_bytes := acc.rx_total_bytes +
        (l.map (fun c => c.iostat.rx_total_bytes)).sum
      tx_speed := acc.tx_speed + (l.map (fun c => c.iostat.tx_speed)).sum
      rx_speed := acc.rx_speed + (l.map (fun c => c.iostat.rx_speed)).sum } := by
  induction l with
  | nil => intro acc; simp
  | cons c rest ih =>
    intro acc
    simp only [List.foldl_cons, List.map_cons, List.sum_cons]
    rw [ih]
    simp only [IOStat.mk.injEq]
    refine ⟨by omega, by omega, by omega, by omega⟩

/-- C8: the server's `get_status` and `get_iostat` return exactly the
field-wise sum, starting from zero, of the corresponding counters of
every connection currently in the registry — in particular both return
all-zero for an empty registry.  In the embedding (as in the code,
whose server state has no aggregate member) the result is a pure
function of `client_list`, recomputed by iteration at each call and
never persisted. -/
theorem c8_statistics_field_wise_sum (srv : TCPServerState) :
    MAVConnTCPServer.get_status srv =
      { packet_rx_success_count :=
          (srv.client_list.map (fun c => c.status.packet_rx_success_count)).sum
        packet_rx_drop_count :=
          (srv.client_list.map (fun c => c.status.packet_rx_drop_count)).sum
        buffer_overrun :=
          (srv.client_list.map (fun c => c.status.buffer_overrun)).sum
        parse_error :=
          (srv.client_list.map (fun c => c.status.parse_error)).sum } ∧
    MAVConnTCPServer.get_iostat srv =
      { tx_total_bytes :=
          (srv.client_list.map (fun c => c.iostat.tx_total_bytes)).sum
        rx_total_bytes :=
          (srv.client_list.map (fun c => c.iostat.rx_total_bytes)).sum
        tx_speed := (srv.client_list.map (fun c => c.iostat.tx_speed)).sum
        rx_speed := (srv.client_list.map (fun c => c.iostat.rx_speed)).sum } ∧
    MAVConnTCPServer.get_status { srv with client_list := [] } = ⟨0, 0, 0, 0⟩ ∧
    MAVConnTCPServer.get_iostat { srv with client_list := [] } = ⟨0, 0, 0, 0⟩ := by
  refine ⟨?_, ?_, rfl, rfl⟩
  · unfold MAVConnTCPServer.get_status
    rw [get_status_foldl]
    simp
  · unfold MAVConnTCPServer.get_iostat
    rw [get_iostat_foldl]
    simp

/-! ## Claim C9 -/

/-- Removing an id that does not occur leaves the registry unchanged. -/
lemma filter_ne_of_notin (i : Nat) (l : List TCPClientState)
    (h : i ∉ l.map (fun c => c.conn_id)) :
    l.filter (fun c => c.conn_id ≠ i) = l := by
  induction l with
  | nil => rfl
  | cons c rest ih =>
    simp only [List.map_cons, List.mem_cons, not_or] at h
    rw [List.filter_cons_of_pos, ih h.2]
    simp only [decide_eq_true_eq]
    exact fun he => h.1 (he ▸ rfl)

/-- With pairwise-distinct ids, removing a present id shrinks the
registry by exactly one element. -/
lemma client_removed_len (i : Nat) : ∀ l : List TCPClientState,
    (l.map (fun c => c.conn_id)).Nodup → i ∈ l.map (fun c => c.conn_id) →
    (l.filter (fun c => c.conn_id ≠ i)).length + 1 = l.length := by
  intro l
  induction l with
  | nil => intro _ h; simp at h
  | cons c rest ih =>
    intro hnd hm
    simp only [List.map_cons, List.nodup_cons] at hnd
    simp only [List.map_cons, List.mem_cons] at hm
    rcases hm with hm | hm
    · rw [List.filter_cons_of_neg, filter_ne_of_notin i rest (hm ▸ hnd.1)]
      · simp
      · simp [hm]
    · rw [List.filter_cons_of_pos]
      · have := ih hnd.2 hm
        simp only [List.length_cons]
        omega
      · simp only [decide_eq_true_eq]
        intro he
        exact hnd.1 (he ▸ hm)

/-- No element of the filtered registry carries the removed id. -/
lemma client_removed_notin (i : Nat) (l : List TCPClientState) :
    i ∉ (l.filter (fun c => c.conn_id ≠ i)).map (fun c => c.conn_id) := by
  intro h
  simp only [List.mem_map, List.mem_filter] at h
  obtain ⟨c, ⟨_, hne⟩, he⟩ := h
  simp only [decide_eq_true_eq] at hne
  exact hne he

/-- C9: a deregistration request whose weak reference no longer
resolves is a silent no-op; one whose weak reference resolves to a
registered connection (registry ids are pairwise distinct, as each
accepted client gets a fresh channel) removes that connection exactly
once: the registry shrinks by one, the connection is gone, and
repeating the removal changes nothing. -/
theorem c9_deregister_weak_reference (reg : List TCPClientState)
    (inst : TCPClientState)
    (hnd : (reg.map (fun c => c.conn_id)).Nodup)
    (hm : inst.conn_id ∈ reg.map (fun c => c.conn_id)) :
    MAVConnTCPServer.client_closed reg none = reg ∧
    (MAVConnTCPServer.client_closed reg (some inst)).length + 1 = reg.length ∧
    inst.conn_id ∉
      (MAVConnTCPServer.client_closed reg (some inst)).map (fun c => c.conn_id) ∧
    MAVConnTCPServer.client_closed
        (MAVConnTCPServer.client_closed reg (some inst)) (some inst) =
      MAVConnTCPServer.client_closed reg (some inst) := by
  refine ⟨rfl, ?_, ?_, ?_⟩
  · exact client_removed_len inst.conn_id reg hnd hm
  · exact client_removed_notin inst.conn_id reg
  · exact filter_ne_of_notin inst.conn_id _
      (client_removed_notin inst.conn_id reg)

/-- Witness for C9 on a two-client registry, removing the first. -/
theorem c9_deregister_weak_reference_witness :
    MAVConnTCPServer.client_closed [cIdle, cOther] none = [cIdle, cOther] ∧
    (MAVConnTCPServer.client_closed [cIdle, cOther] (some cIdle)).length + 1 =
      ([cIdle, cOther] : List TCPClientState).length ∧
    cIdle.conn_id ∉
      (MAVConnTCPServer.client_closed [cIdle, cOther] (some cIdle)).map
        (fun c => c.conn_id) ∧
    MAVConnTCPServer.client_closed
        (MAVConnTCPServer.client_closed [cIdle, cOther] (some cIdle))
        (some cIdle) =
      MAVConnTCPServer.client_closed [cIdle, cOther] (some cIdle) :=
  c9_deregister_weak_reference [cIdle, cOther] cIdle (by decide) (by decide)

end mavconn
